import Mathlib

/-
Verification of the job-orchestration core of this repository
(`toonkor_collector2/consumers.py`) and of the file-sanitization utility
(`modules/utils/file_handler.py`).

The consumers are modelled as pure functions from their (already parsed)
inputs to the list of observable effects they perform, in order: Status
Cache writes (`update_cached_chapter`), persisted-store saves
(`Chapter.save`), Broadcast-Bus publishes (`channel_layer.group_send`) and
enqueues to the asynchronous executors (`downloader.append`,
`cleaner.append`).  Status values stay the plain strings the source uses
('LOADING', 'REMOVING', 'READY', ...).  Chapter indices are modelled as
naturals, following the data model (index: non-negative integer).
-/

/-- A chapter dictionary as it travels through `run_download_translate` /
`run_remove`: the JSON object's `index` key plus the two status keys the
code mutates in place (absent keys are `none`). -/
structure ChapterDict where
  index : Nat
  download_status : Option String
  translation_status : Option String
deriving DecidableEq

/-- The `remove_choices` object of a removal request. -/
structure RemoveChoices where
  downloaded : Bool
  translated : Bool
deriving DecidableEq

/-- The `progress` object of a Progress Message: `{}` is both fields absent,
`{current: c, total: t}` is both present. -/
structure Progress where
  current : Option Nat
  total : Option Nat
deriving DecidableEq

/-- Payload of a `send_progress` group message: either the batch shape sent
by `DownloadTranslateConsumer` (a chapter list plus a progress object) or the
single-chapter shape `[{index, status: "Translated"}]` sent by
`QtConsumer.receive`. -/
inductive GroupMsg where
  | progress (chapters : List ChapterDict) (prog : Progress)
  | qtTranslated (index : Nat) (status : String) (prog : Progress)
deriving DecidableEq

/-- One observable effect of a consumer handler. -/
inductive Event where
  | cacheUpdate (manhwaId : String) (index : Nat) (field value : String)
  | chapterSave (manhwaId : String) (index : Nat) (translation_status : String)
  | groupSend (group : String) (msg : GroupMsg)
  | downloaderAppend (manhwaId group task : String) (chapters : List ChapterDict)
  | cleanerAppend (manhwaId group : String) (chapters : List ChapterDict)
      (choices : RemoveChoices)
deriving DecidableEq

/-- `update_cached_chapter(manhwa_id, index, field, value)` (defined in
`toonkor_collector2/api.py`): a Status Cache write-through, recorded as an
effect. -/
def update_cached_chapter (manhwaId : String) (index : Nat) (field value : String) :
    Event :=
  Event.cacheUpdate manhwaId index field value

def Event.isCacheUpdate : Event → Bool
  | .cacheUpdate .. => true
  | _ => false

def Event.isGroupSend : Event → Bool
  | .groupSend .. => true
  | _ => false

/-- Whether an event hands a batch to an asynchronous executor queue
(`downloader.append` or `cleaner.append`). -/
def Event.isEnqueue : Event → Bool
  | .downloaderAppend .. => true
  | .cleanerAppend .. => true
  | _ => false

/-- The progress object carried by a `send_progress` message. -/
def GroupMsg.progressOf : GroupMsg → Progress
  | .progress _ p => p
  | .qtTranslated _ _ p => p

/-- The value a single event writes to the Status Cache entry
`(mid, idx, f)`, if any. -/
def headWrite (mid : String) (idx : Nat) (f : String) : Event → Option String
  | Event.cacheUpdate i x g v => if i = mid ∧ x = idx ∧ g = f then some v else none
  | _ => none

/-- The Status Cache entry for `(mid, idx, f)` after a trace of effects has
run: the value of the last matching `cacheUpdate`, or `none` if the entry was
never written (4.1: `absent`, distinct from NONE). -/
def cacheAfter : List Event → String → Nat → String → Option String
  | [], _, _, _ => none
  | e :: rest, mid, idx, f =>
    match cacheAfter rest mid idx f with
    | some v => some v
    | none => headWrite mid idx f e

/-- The group keys of the `groupSend` events of a trace, in publish order. -/
def sendGroups (t : List Event) : List String :=
  t.filterMap fun e =>
    match e with
    | .groupSend g _ => some g
    | _ => none

/-- Modelled from the spec: `encode_name` is defined in
`toonkor_collector2/models.py`, which is not among the provided sources.  The
spec requires a one-way, deterministic, collision-resistant encoding of a
series id into a token free of path separators; it is modelled here by
spelling out each character's code point.  No theorem below depends on
anything beyond `encode_name` being a function. -/
def encode_name (s : String) : String :=
  String.join (s.data.map fun c => "_" ++ toString c.toNat)

/-- The group key `QtConsumer.receive` publishes to for a message whose
`toonkor_id` is `toonkor_id` (consumers.py line 58). -/
def qt_broadcast_group (toonkor_id : String) : String :=
  "download_translate_" ++ encode_name toonkor_id

/-- The group key a `DownloadTranslateConsumer` joins on connect: its
`manhwa_id` is `"/" + url_route.kwargs["toonkor_id"]` (consumers.py
lines 93–96). -/
def DownloadTranslateConsumer.connect_group (route_toonkor_id : String) : String :=
  "download_translate_" ++ encode_name ("/" ++ route_toonkor_id)

/-- `QtConsumer.receive`: looks up the chapter (`chapter_found` models
whether `Chapter.objects.get` succeeds; on failure the exception aborts the
handler and nothing happens), sets its `translation_status` to
`StatusChoices.READY` and saves it, writes 'READY' through to the Status
Cache, and publishes one `send_progress` message to the series group.
`prog` is the request's `progress` payload, forwarded untouched. -/
def QtConsumer.receive (toonkor_id : String) (chapter : Nat) (prog : Progress)
    (chapter_found : Bool) : Option (List Event) :=
  if chapter_found then
    some [Event.chapterSave toonkor_id chapter "READY",
          update_cached_chapter toonkor_id chapter "translation_status" "READY",
          Event.groupSend (qt_broadcast_group toonkor_id)
            (GroupMsg.qtTranslated chapter "Translated" prog)]
  else none

/-- The per-chapter loop of `run_download_translate` (consumers.py
lines 119–124): returns the mutated chapter list and the cache-write effects,
in order. -/
def dtLoop (manhwaId task : String) : List ChapterDict → List ChapterDict × List Event
  | [] => ([], [])
  | ch :: rest =>
    let ch1 : ChapterDict := { ch with download_status := some "LOADING" }
    let es1 := [update_cached_chapter manhwaId ch.index "download_status" "LOADING"]
    let step :=
      if task = "download_translate" then
        ({ ch1 with translation_status := some "LOADING" },
         es1 ++ [update_cached_chapter manhwaId ch.index "translation_status" "LOADING"])
      else (ch1, es1)
    let tail := dtLoop manhwaId task rest
    (step.1 :: tail.1, step.2 ++ tail.2)

/-- `DownloadTranslateConsumer.run_download_translate` (consumers.py
lines 117–134): optimistic LOADING writes, then one `send_progress` publish
with counter `{current: 0, total: len(chapters)}`, then `downloader.append`. -/
def run_download_translate (manhwaId group_name task : String)
    (chapters : List ChapterDict) : List Event :=
  (dtLoop manhwaId task chapters).2 ++
    [Event.groupSend group_name
        (GroupMsg.progress (dtLoop manhwaId task chapters).1
          { current := some 0, total := some chapters.length }),
     Event.downloaderAppend manhwaId group_name task (dtLoop manhwaId task chapters).1]

/-- The per-chapter loop of `run_remove` (consumers.py lines 137–144).
Note the source writes the cache under the field name 'remove_status' (not
'translation_status') in the `translated` branch; the model reproduces
this verbatim. -/
def rmLoop (manhwaId : String) (remove_choices : RemoveChoices) :
    List ChapterDict → List ChapterDict × List Event
  | [] => ([], [])
  | ch :: rest =>
    let step1 :=
      if remove_choices.downloaded then
        ({ ch with download_status := some "REMOVING" },
         [update_cached_chapter manhwaId ch.index "download_status" "REMOVING"])
      else (ch, [])
    let step2 :=
      if remove_choices.translated then
        ({ step1.1 with translation_status := some "REMOVING" },
         step1.2 ++ [update_cached_chapter manhwaId ch.index "remove_status" "REMOVING"])
      else step1
    let tail := rmLoop manhwaId remove_choices rest
    (step2.1 :: tail.1, step2.2 ++ tail.2)

/-- `DownloadTranslateConsumer.run_remove` (consumers.py lines 136–154):
optimistic REMOVING writes, then one `send_progress` publish with the empty
progress object `{}`, then `cleaner.append`. -/
def run_remove (manhwaId group_name : String) (chapters : List ChapterDict)
    (remove_choices : RemoveChoices) : List Event :=
  (rmLoop manhwaId remove_choices chapters).2 ++
    [Event.groupSend group_name
        (GroupMsg.progress (rmLoop manhwaId remove_choices chapters).1
          { current := none, total := none }),
     Event.cleanerAppend manhwaId group_name (rmLoop manhwaId remove_choices chapters).1
       remove_choices]

/-- `DownloadTranslateConsumer.receive` (consumers.py lines 100–115):
dispatch on `data["task"]`.  `remove_choices` is `data["remove_choices"]`
when present; `none` models the KeyError a remove request without it raises
(nothing happens).  Every task other than "remove" is passed to
`run_download_translate` unchecked. -/
def DownloadTranslateConsumer.receive (manhwaId group_name task : String)
    (chapters : List ChapterDict) (remove_choices : Option RemoveChoices) :
    Option (List Event) :=
  if task = "remove" then
    match remove_choices with
    | some rc => some (run_remove manhwaId group_name chapters rc)
    | none => none
  else some (run_download_translate manhwaId group_name task chapters)

/-- A chapter dictionary after the download branch of the optimistic update:
`chapter['download_status'] = 'LOADING'`. -/
def dlLoading (ch : ChapterDict) : ChapterDict :=
  { ch with download_status := some "LOADING" }

/-- A chapter dictionary after both optimistic updates of a
`download_translate` batch. -/
def bothLoading (ch : ChapterDict) : ChapterDict :=
  { ch with download_status := some "LOADING", translation_status := some "LOADING" }

/-- A chapter dictionary after the downloaded-artifacts branch of a removal:
`chapter['download_status'] = 'REMOVING'`. -/
def dlRemoving (ch : ChapterDict) : ChapterDict :=
  { ch with download_status := some "REMOVING" }

/-!
## modules/utils/file_handler.py

`FileHandler.sanitize_and_copy_files` and `FileHandler.prepare_files`,
modelled over Lean strings.  The filesystem is an oracle: `copyOk src dst`
says whether `shutil.copy` succeeds (its IOError is caught by the source and
leaves the original path in place); `extract` stands for `extract_archive`.
`os.makedirs(..., exist_ok=True)` and `tempfile.mkdtemp` are assumed to
succeed, and the `self.archive_info` bookkeeping is elided — neither affects
the returned path list.
-/

/-- Python `str.isascii`: every code point below 128 (true for ""). -/
def pyIsAscii (s : String) : Bool :=
  s.data.all fun c => c.toNat < 128

/-- Membership in Python's `string.printable`: ASCII digits, letters,
punctuation, space and the whitespace characters tab, linefeed, return,
vertical tab, formfeed. -/
def pyPrintable (c : Char) : Bool :=
  decide ((32 ≤ c.toNat ∧ c.toNat ≤ 126) ∨ c.toNat = 9 ∨ c.toNat = 10 ∨
    c.toNat = 13 ∨ c.toNat = 11 ∨ c.toNat = 12)

/-- The index of the last occurrence of `ch` in the list, Python's
`str.rfind` (as an `Option` instead of -1). -/
def lastPos (ch : Char) : List Char → Option Nat
  | [] => none
  | c :: rest =>
    match lastPos ch rest with
    | some i => some (i + 1)
    | none => if c = ch then some 0 else none

/-- `posixpath.split`: cut after the last '/', then strip trailing slashes
from the head unless it is empty or all slashes. -/
def posixSplit (p : List Char) : List Char × List Char :=
  let i := match lastPos '/' p with
    | some j => j + 1
    | none => 0
  let head := p.take i
  let tail := p.drop i
  let head2 := if head ≠ [] ∧ head.any (fun c => c ≠ '/') then
      (head.reverse.dropWhile fun c => c = '/').reverse
    else head
  (head2, tail)

/-- `os.path.dirname` for POSIX paths. -/
def posixDirname (p : List Char) : List Char := (posixSplit p).1

/-- `os.path.basename` for POSIX paths. -/
def posixBasename (p : List Char) : List Char := (posixSplit p).2

/-- `posixpath.splitext`: split at the last dot when it lies after the last
slash and at least one character between them is not a dot (leading dots of
the final component belong to the root). -/
def posixSplitext (p : List Char) : List Char × List Char :=
  let sepIndex : Int := match lastPos '/' p with
    | some i => (i : Int)
    | none => -1
  let dotIndex : Int := match lastPos '.' p with
    | some i => (i : Int)
    | none => -1
  if sepIndex < dotIndex then
    let d := dotIndex.toNat
    let start := (sepIndex + 1).toNat
    if ((p.drop start).take (d - start)).any (fun c => c ≠ '.') then
      (p.take d, p.drop d)
    else (p, [])
  else (p, [])

/-- `os.path.join` for POSIX paths, two arguments. -/
def posixJoin (a b : String) : String :=
  if b.startsWith "/" then b
  else if a = "" ∨ a.endsWith "/" then a ++ b
  else a ++ "/" ++ b

/-- One iteration of the `sanitize_and_copy_files` loop: a fully-ASCII path
is kept as is; otherwise the path is filtered to printable characters, a
sanitized destination `join(dir_name, basename + str(index) + ext)` is
formed, and the copy's outcome decides which path is appended. -/
def sanitizeOne (copyOk : String → String → Bool) (index : Nat)
    (image_path : String) : String :=
  if pyIsAscii image_path then image_path
  else
    let name := String.mk (image_path.data.filter pyPrintable)
    let dir_name := String.mk ((posixDirname image_path.data).filter pyPrintable)
    let se := posixSplitext (posixBasename name.data)
    let basename := if se.2 = [] then ([] : List Char) else se.1
    let ext := if se.2 = [] then se.1 else se.2
    let sanitized_path :=
      posixJoin dir_name (String.mk basename ++ toString index ++ String.mk ext)
    if copyOk image_path sanitized_path then sanitized_path else image_path

/-- The `enumerate` loop of `sanitize_and_copy_files`, from position
`index` on. -/
def sanitizeFrom (copyOk : String → String → Bool) :
    Nat → List String → List String
  | _, [] => []
  | index, image_path :: rest =>
    sanitizeOne copyOk index image_path :: sanitizeFrom copyOk (index + 1) rest

/-- `FileHandler.sanitize_and_copy_files` (file_handler.py lines 40–61). -/
def sanitize_and_copy_files (copyOk : String → String → Bool)
    (file_paths : List String) : List String :=
  sanitizeFrom copyOk 0 file_paths

/-- ASCII lowering, standing in for Python `str.lower` (the suffix tests
below only involve ASCII suffixes). -/
def pyLowerChar (c : Char) : Char :=
  if 65 ≤ c.toNat ∧ c.toNat ≤ 90 then Char.ofNat (c.toNat + 32) else c

def pyLower (s : String) : String := String.mk (s.data.map pyLowerChar)

/-- Python `str.endswith` with a tuple of suffixes. -/
def endsWithAny (s : String) (suffixes : List String) : Bool :=
  suffixes.any fun suf => s.endsWith suf

def archiveExts : List String := [".cbr", ".cbz", ".zip", ".cbt", ".cb7", ".pdf", ".epub"]

def imageExts : List String := [".jpg", ".jpeg", ".png", ".webp", ".bmp"]

/-- `FileHandler.prepare_files` (file_handler.py lines 14–38), as a function
of the instance's `file_paths` list, returning the new `file_paths`.
`none` models an IndexError of the subscript
`sanitize_and_copy_files([path])[0]` on the non-archive branch. -/
def prepare_files (copyOk : String → String → Bool)
    (extract : String → List String) : List String → Option (List String)
  | [] => some []
  | path :: rest =>
    if endsWithAny (pyLower path) archiveExts then
      let image_paths := sanitize_and_copy_files copyOk
        ((extract path).filter fun f => endsWithAny (pyLower f) imageExts)
      (prepare_files copyOk extract rest).map fun r => image_paths ++ r
    else
      match (sanitize_and_copy_files copyOk [path]).get? 0 with
      | some p2 => (prepare_files copyOk extract rest).map fun r => p2 :: r
      | none => none

/-! ### Basic facts about the Status Cache semantics -/

theorem cacheAfter_cons (e : Event) (rest : List Event) (mid : String) (idx : Nat)
    (f : String) :
    cacheAfter (e :: rest) mid idx f =
      match cacheAfter rest mid idx f with
      | some v => some v
      | none => headWrite mid idx f e := rfl

/-! ### Unfolding the per-chapter loops -/

theorem dtLoop_cons_dt (manhwaId : String) (ch : ChapterDict) (rest : List ChapterDict) :
    dtLoop manhwaId "download_translate" (ch :: rest) =
      ({ ch with download_status := some "LOADING",
                 translation_status := some "LOADING" } ::
         (dtLoop manhwaId "download_translate" rest).1,
       Event.cacheUpdate manhwaId ch.index "download_status" "LOADING" ::
         Event.cacheUpdate manhwaId ch.index "translation_status" "LOADING" ::
           (dtLoop manhwaId "download_translate" rest).2) := rfl

theorem dtLoop_cons_other (manhwaId task : String) (ht : task ≠ "download_translate")
    (ch : ChapterDict) (rest : List ChapterDict) :
    dtLoop manhwaId task (ch :: rest) =
      ({ ch with download_status := some "LOADING" } :: (dtLoop manhwaId task rest).1,
       Event.cacheUpdate manhwaId ch.index "download_status" "LOADING" ::
         (dtLoop manhwaId task rest).2) := by
  simp [dtLoop, ht, update_cached_chapter]

theorem dtLoop_fst_dt (manhwaId : String) (chs : List ChapterDict) :
    (dtLoop manhwaId "download_translate" chs).1 = chs.map bothLoading := by
  induction chs with
  | nil => rfl
  | cons ch rest ih =>
    rw [List.map_cons, dtLoop_cons_dt, ih]
    rfl

theorem dtLoop_fst_other (manhwaId task : String) (h : task ≠ "download_translate")
    (chs : List ChapterDict) :
    (dtLoop manhwaId task chs).1 = chs.map dlLoading := by
  induction chs with
  | nil => rfl
  | cons ch rest ih =>
    rw [List.map_cons, dtLoop_cons_other manhwaId task h, ih]
    rfl

theorem dtLoop_snd_cacheUpdate (manhwaId task : String) (chs : List ChapterDict) :
    ∀ e ∈ (dtLoop manhwaId task chs).2, e.isCacheUpdate = true := by
  induction chs with
  | nil => intro e he; simp [dtLoop] at he
  | cons ch rest ih =>
    by_cases ht : task = "download_translate"
    · subst ht
      rw [dtLoop_cons_dt]
      intro e he
      rcases List.mem_cons.1 he with rfl | he2
      · rfl
      rcases List.mem_cons.1 he2 with rfl | he3
      · rfl
      · exact ih e he3
    · rw [dtLoop_cons_other manhwaId task ht]
      intro e he
      rcases List.mem_cons.1 he with rfl | he2
      · rfl
      · exact ih e he2

theorem cacheAfter_mem_of_eq_some {mid : String} {idx : Nat} {f w : String} :
    ∀ {t : List Event}, cacheAfter t mid idx f = some w →
      Event.cacheUpdate mid idx f w ∈ t := by
  intro t
  induction t with
  | nil => intro h; exact absurd h (by simp [cacheAfter])
  | cons e rest ih =>
    rw [cacheAfter_cons]
    cases hr : cacheAfter rest mid idx f with
    | some u =>
      intro h
      rw [Option.some_inj.1 h] at hr
      exact List.mem_cons_of_mem _ (ih hr)
    | none =>
      intro h
      cases e with
      | cacheUpdate i x g v =>
        simp only [headWrite] at h
        split at h
        · rename_i hc
          obtain ⟨rfl, rfl, rfl⟩ := hc
          rw [Option.some_inj.1 h]
          exact List.mem_cons_self _ _
        · exact absurd h (by simp)
      | chapterSave mid2 idx2 s => exact absurd h (by simp [headWrite])
      | groupSend g m => exact absurd h (by simp [headWrite])
      | downloaderAppend a b c d => exact absurd h (by simp [headWrite])
      | cleanerAppend a b c d => exact absurd h (by simp [headWrite])

theorem cacheAfter_eq_some {mid : String} {idx : Nat} {f v : String} :
    ∀ {t : List Event}, Event.cacheUpdate mid idx f v ∈ t →
      (∀ v', Event.cacheUpdate mid idx f v' ∈ t → v' = v) →
      cacheAfter t mid idx f = some v := by
  intro t
  induction t with
  | nil => intro h1 _; cases h1
  | cons e rest ih =>
    intro h1 h2
    rw [cacheAfter_cons]
    cases hr : cacheAfter rest mid idx f with
    | some u =>
      have hu : u = v := h2 u (List.mem_cons_of_mem _ (cacheAfter_mem_of_eq_some hr))
      rw [hu]
    | none =>
      rcases List.mem_cons.1 h1 with he | hmem
      · rw [← he]
        simp [headWrite]
      · have := ih hmem fun v' hv' => h2 v' (List.mem_cons_of_mem _ hv')
        rw [this] at hr
        cases hr

theorem cacheAfter_eq_none {mid : String} {idx : Nat} {f : String} {t : List Event}
    (h : ∀ v, Event.cacheUpdate mid idx f v ∉ t) :
    cacheAfter t mid idx f = none := by
  cases hc : cacheAfter t mid idx f with
  | none => rfl
  | some w => exact absurd (cacheAfter_mem_of_eq_some hc) (h w)

/-! ### Which cache writes the loops emit -/

theorem dtLoop_mem_dl (manhwaId task : String) {chs : List ChapterDict}
    {ch : ChapterDict} (hch : ch ∈ chs) :
    Event.cacheUpdate manhwaId ch.index "download_status" "LOADING" ∈
      (dtLoop manhwaId task chs).2 := by
  induction chs with
  | nil => cases hch
  | cons c rest ih =>
    by_cases ht : task = "download_translate"
    · subst ht
      rw [dtLoop_cons_dt]
      rcases List.mem_cons.1 hch with rfl | hmem
      · exact List.mem_cons_self _ _
      · exact List.mem_cons_of_mem _ (List.mem_cons_of_mem _ (ih hmem))
    · rw [dtLoop_cons_other manhwaId task ht]
      rcases List.mem_cons.1 hch with rfl | hmem
      · exact List.mem_cons_self _ _
      · exact List.mem_cons_of_mem _ (ih hmem)

theorem dtLoop_mem_tr (manhwaId : String) {chs : List ChapterDict}
    {ch : ChapterDict} (hch : ch ∈ chs) :
    Event.cacheUpdate manhwaId ch.index "translation_status" "LOADING" ∈
      (dtLoop manhwaId "download_translate" chs).2 := by
  induction chs with
  | nil => cases hch
  | cons c rest ih =>
    rw [dtLoop_cons_dt]
    rcases List.mem_cons.1 hch with rfl | hmem
    · exact List.mem_cons_of_mem _ (List.mem_cons_self _ _)
    · exact List.mem_cons_of_mem _ (List.mem_cons_of_mem _ (ih hmem))

/-- Every effect emitted by the `run_download_translate` loop is a cache
write of 'LOADING', on the request's own series id, under
'download_status' — or under 'translation_status' when the task is
`download_translate`. -/
theorem dtLoop_shape (manhwaId task : String) (chs : List ChapterDict) :
    ∀ e ∈ (dtLoop manhwaId task chs).2, ∃ ch ∈ chs, ∃ g,
      e = Event.cacheUpdate manhwaId ch.index g "LOADING" ∧
        (g = "download_status" ∨
          (task = "download_translate" ∧ g = "translation_status")) := by
  induction chs with
  | nil => intro e he; simp [dtLoop] at he
  | cons c rest ih =>
    intro e he
    by_cases ht : task = "download_translate"
    · subst ht
      rw [dtLoop_cons_dt] at he
      rcases List.mem_cons.1 he with rfl | he2
      · exact ⟨c, List.mem_cons_self _ _, "download_status", rfl, Or.inl rfl⟩
      rcases List.mem_cons.1 he2 with rfl | he3
      · exact ⟨c, List.mem_cons_self _ _, "translation_status", rfl, Or.inr ⟨rfl, rfl⟩⟩
      · obtain ⟨ch, hm, g, hg, hor⟩ := ih e he3
        exact ⟨ch, List.mem_cons_of_mem _ hm, g, hg, hor⟩
    · rw [dtLoop_cons_other manhwaId task ht] at he
      rcases List.mem_cons.1 he with rfl | he2
      · exact ⟨c, List.mem_cons_self _ _, "download_status", rfl, Or.inl rfl⟩
      · obtain ⟨ch, hm, g, hg, hor⟩ := ih e he2
        exact ⟨ch, List.mem_cons_of_mem _ hm, g, hg, hor⟩

theorem rmLoop_cons_fst (manhwaId : String) (rc : RemoveChoices) (ch : ChapterDict)
    (rest : List ChapterDict) :
    (rmLoop manhwaId rc (ch :: rest)).1 =
      (if rc.translated then
          { (if rc.downloaded then
               { ch with download_status := some "REMOVING" } else ch) with
            translation_status := some "REMOVING" }
        else if rc.downloaded then
          { ch with download_status := some "REMOVING" } else ch) ::
        (rmLoop manhwaId rc rest).1 := by
  obtain ⟨d, t⟩ := rc
  cases d <;> cases t <;> simp [rmLoop, update_cached_chapter]

theorem rmLoop_cons_snd (manhwaId : String) (rc : RemoveChoices) (ch : ChapterDict)
    (rest : List ChapterDict) :
    (rmLoop manhwaId rc (ch :: rest)).2 =
      ((if rc.downloaded then
           [Event.cacheUpdate manhwaId ch.index "download_status" "REMOVING"]
         else []) ++
        (if rc.translated then
           [Event.cacheUpdate manhwaId ch.index "remove_status" "REMOVING"]
         else [])) ++ (rmLoop manhwaId rc rest).2 := by
  obtain ⟨d, t⟩ := rc
  cases d <;> cases t <;> simp [rmLoop, update_cached_chapter]

/-- Every effect emitted by the `run_remove` loop is a cache write of
'REMOVING' on the request's own series id, under 'download_status' when
downloaded artifacts are targeted, or — verbatim from the source — under the
field name 'remove_status' when translated artifacts are targeted. -/
theorem rmLoop_shape (manhwaId : String) (rc : RemoveChoices) (chs : List ChapterDict) :
    ∀ e ∈ (rmLoop manhwaId rc chs).2, ∃ ch ∈ chs, ∃ g,
      e = Event.cacheUpdate manhwaId ch.index g "REMOVING" ∧
        ((rc.downloaded = true ∧ g = "download_status") ∨
          (rc.translated = true ∧ g = "remove_status")) := by
  induction chs with
  | nil => intro e he; simp [rmLoop] at he
  | cons c rest ih =>
    intro e he
    rw [rmLoop_cons_snd] at he
    rcases List.mem_append.1 he with he3 | he3
    · rcases List.mem_append.1 he3 with he4 | he4
      · refine ⟨c, List.mem_cons_self _ _, "download_status", ?_, ?_⟩
        · cases hd : rc.downloaded <;> simp_all [hd]
        · left
          constructor
          · cases hd : rc.downloaded <;> simp_all [hd]
          · rfl
      · refine ⟨c, List.mem_cons_self _ _, "remove_status", ?_, ?_⟩
        · cases ht : rc.translated <;> simp_all [ht]
        · right
          constructor
          · cases ht : rc.translated <;> simp_all [ht]
          · rfl
    · obtain ⟨ch, hm, g, hg, hor⟩ := ih e he3
      exact ⟨ch, List.mem_cons_of_mem _ hm, g, hg, hor⟩

theorem rmLoop_snd_cacheUpdate (manhwaId : String) (rc : RemoveChoices)
    (chs : List ChapterDict) :
    ∀ e ∈ (rmLoop manhwaId rc chs).2, e.isCacheUpdate = true := by
  intro e he
  obtain ⟨ch, _, g, hg, _⟩ := rmLoop_shape manhwaId rc chs e he
  rw [hg]
  rfl

/-- With targets `{downloaded: true, translated: false}` the loop updates
only `download_status` in the broadcast chapter list. -/
theorem rmLoop_fst_downloaded_only (manhwaId : String) (chs : List ChapterDict) :
    (rmLoop manhwaId ⟨true, false⟩ chs).1 = chs.map dlRemoving := by
  induction chs with
  | nil => rfl
  | cons ch rest ih =>
    rw [List.map_cons, rmLoop_cons_fst, ih]
    rfl

theorem countP_eq_zero_of_all (p : Event → Bool) (l : List Event)
    (h : ∀ e ∈ l, p e = false) : l.countP p = 0 :=
  List.countP_eq_zero.2 fun e he => by rw [h e he]; exact Bool.false_ne_true

theorem isGroupSend_false_of_isCacheUpdate {e : Event} (h : e.isCacheUpdate = true) :
    e.isGroupSend = false := by
  cases e <;> simp_all [Event.isCacheUpdate, Event.isGroupSend]

theorem isEnqueue_false_of_isCacheUpdate {e : Event} (h : e.isCacheUpdate = true) :
    e.isEnqueue = false := by
  cases e <;> simp_all [Event.isCacheUpdate, Event.isEnqueue]

theorem countP_send_run_dt (manhwaId group_name task : String) (chs : List ChapterDict) :
    (run_download_translate manhwaId group_name task chs).countP Event.isGroupSend = 1 := by
  have h0 : (dtLoop manhwaId task chs).2.countP Event.isGroupSend = 0 :=
    countP_eq_zero_of_all _ _ fun e he =>
      isGroupSend_false_of_isCacheUpdate (dtLoop_snd_cacheUpdate manhwaId task chs e he)
  rw [run_download_translate, List.countP_append, h0]
  rfl

theorem countP_enq_run_dt (manhwaId group_name task : String) (chs : List ChapterDict) :
    (run_download_translate manhwaId group_name task chs).countP Event.isEnqueue = 1 := by
  have h0 : (dtLoop manhwaId task chs).2.countP Event.isEnqueue = 0 :=
    countP_eq_zero_of_all _ _ fun e he =>
      isEnqueue_false_of_isCacheUpdate (dtLoop_snd_cacheUpdate manhwaId task chs e he)
  rw [run_download_translate, List.countP_append, h0]
  rfl

theorem countP_send_run_remove (manhwaId group_name : String) (chs : List ChapterDict)
    (rc : RemoveChoices) :
    (run_remove manhwaId group_name chs rc).countP Event.isGroupSend = 1 := by
  have h0 : (rmLoop manhwaId rc chs).2.countP Event.isGroupSend = 0 :=
    countP_eq_zero_of_all _ _ fun e he =>
      isGroupSend_false_of_isCacheUpdate (rmLoop_snd_cacheUpdate manhwaId rc chs e he)
  rw [run_remove, List.countP_append, h0]
  rfl

/-- A cache write occurring anywhere in a `run_download_translate` trace was
emitted by its per-chapter loop (the trace's tail is a publish and an
enqueue). -/
theorem run_dt_cache_writes {manhwaId group_name task : String} {chs : List ChapterDict}
    {mid : String} {idx : Nat} {f v : String}
    (h : Event.cacheUpdate mid idx f v ∈
      run_download_translate manhwaId group_name task chs) :
    Event.cacheUpdate mid idx f v ∈ (dtLoop manhwaId task chs).2 := by
  rw [run_download_translate] at h
  rcases List.mem_append.1 h with h1 | h1
  · exact h1
  · rcases List.mem_cons.1 h1 with h2 | h2
    · cases h2
    rcases List.mem_cons.1 h2 with h3 | h3
    · cases h3
    · cases h3

/-- A cache write occurring anywhere in a `run_remove` trace was emitted by
its per-chapter loop. -/
theorem run_remove_cache_writes {manhwaId group_name : String} {chs : List ChapterDict}
    {rc : RemoveChoices} {mid : String} {idx : Nat} {f v : String}
    (h : Event.cacheUpdate mid idx f v ∈ run_remove manhwaId group_name chs rc) :
    Event.cacheUpdate mid idx f v ∈ (rmLoop manhwaId rc chs).2 := by
  rw [run_remove] at h
  rcases List.mem_append.1 h with h1 | h1
  · exact h1
  · rcases List.mem_cons.1 h1 with h2 | h2
    · cases h2
    rcases List.mem_cons.1 h2 with h3 | h3
    · cases h3
    · cases h3

theorem cacheAfter_dtLoop_dl (manhwaId task : String) (chs : List ChapterDict)
    {ch : ChapterDict} (hch : ch ∈ chs) :
    cacheAfter (dtLoop manhwaId task chs).2 manhwaId ch.index "download_status" =
      some "LOADING" := by
  refine cacheAfter_eq_some (dtLoop_mem_dl manhwaId task hch) ?_
  intro v' hv'
  obtain ⟨ch2, _, g, hg, _⟩ := dtLoop_shape manhwaId task chs _ hv'
  injection hg with h1 h2 h3 h4

theorem cacheAfter_dtLoop_tr (manhwaId : String) (chs : List ChapterDict)
    {ch : ChapterDict} (hch : ch ∈ chs) :
    cacheAfter (dtLoop manhwaId "download_translate" chs).2 manhwaId ch.index
      "translation_status" = some "LOADING" := by
  refine cacheAfter_eq_some (dtLoop_mem_tr manhwaId hch) ?_
  intro v' hv'
  obtain ⟨ch2, _, g, hg, _⟩ := dtLoop_shape manhwaId _ chs _ hv'
  injection hg with h1 h2 h3 h4

/-- Unless the task is `download_translate`, no `run_download_translate`
trace ever writes a 'translation_status' cache entry, for any key. -/
theorem cacheAfter_run_dt_tr_none (manhwaId group_name task : String)
    (ht : task ≠ "download_translate") (chs : List ChapterDict)
    (mid : String) (idx : Nat) :
    cacheAfter (run_download_translate manhwaId group_name task chs) mid idx
      "translation_status" = none := by
  refine cacheAfter_eq_none fun v hv => ?_
  obtain ⟨ch2, _, g, hg, hor⟩ := dtLoop_shape manhwaId task chs _ (run_dt_cache_writes hv)
  injection hg with h1 h2 h3 h4
  rcases hor with h5 | ⟨h5, h6⟩
  · rw [← h3] at h5
    exact absurd h5 (by decide)
  · exact ht h5

/-- No `run_remove` trace ever writes a 'translation_status' cache entry, for
any key and any removal targets: the source's `translated` branch writes the
cache under the field name 'remove_status' instead. -/
theorem cacheAfter_run_remove_tr_none (manhwaId group_name : String)
    (chs : List ChapterDict) (rc : RemoveChoices) (mid : String) (idx : Nat) :
    cacheAfter (run_remove manhwaId group_name chs rc) mid idx
      "translation_status" = none := by
  refine cacheAfter_eq_none fun v hv => ?_
  obtain ⟨ch2, _, g, hg, hor⟩ :=
    rmLoop_shape manhwaId rc chs _ (run_remove_cache_writes hv)
  injection hg with h1 h2 h3 h4
  rcases hor with ⟨_, h5⟩ | ⟨_, h5⟩ <;> rw [← h3] at h5 <;> exact absurd h5 (by decide)

/-! ### The claims -/

/-- C1: the claim says a removal request targeting translated artifacts sets
each chapter's translation_status entry in the Status Cache to REMOVING
before the immediate broadcast.  Evaluating `run_remove` at the failing
input (one chapter, targets `{downloaded: false, translated: true}`) shows
the code writes the Status Cache under the field name 'remove_status'
instead: the 'translation_status' entry is never written (it is absent even
after the whole trace), while the broadcast chapter list does carry
`translation_status = REMOVING` — the cache-field name is a slip. -/
theorem claim_C1_code_eval :
    cacheAfter (run_remove "/abc" "g" [⟨1, none, none⟩] ⟨false, true⟩)
        "/abc" 1 "translation_status" = none ∧
    cacheAfter (run_remove "/abc" "g" [⟨1, none, none⟩] ⟨false, true⟩)
        "/abc" 1 "remove_status" = some "REMOVING" ∧
    Event.groupSend "g" (GroupMsg.progress [⟨1, none, some "REMOVING"⟩] ⟨none, none⟩) ∈
      run_remove "/abc" "g" [⟨1, none, none⟩] ⟨false, true⟩ := by
  refine ⟨?_, ?_, ?_⟩ <;> decide

/-- C2 (counterexample): the claim says a `translate` batch sets each listed
chapter's translation_status to LOADING in the Status Cache before the
immediate Progress Message.  At the concrete input (task "translate", one
chapter of index 1 on series "/abc") the trace never writes any
'translation_status' cache entry at all. -/
theorem claim_C2_counterexample :
    cacheAfter (run_download_translate "/abc" "g" "translate" [⟨1, none, none⟩])
        "/abc" 1 "translation_status" = none := by
  decide

/-- C2 (amended): for every batch request with operation kind `translate`,
the dispatcher sets each listed chapter's `download_status` — not its
`translation_status` — to LOADING in the Status Cache before publishing the
immediate Progress Message; the trace is the cache writes, then the single
broadcast, then the enqueue, and no 'translation_status' cache entry is
written anywhere in it. -/
theorem claim_C2_amended (manhwaId group_name : String) (chs : List ChapterDict) :
    (∀ ch ∈ chs, cacheAfter (dtLoop manhwaId "translate" chs).2 manhwaId ch.index
        "download_status" = some "LOADING") ∧
    run_download_translate manhwaId group_name "translate" chs =
      (dtLoop manhwaId "translate" chs).2 ++
        [Event.groupSend group_name (GroupMsg.progress (chs.map dlLoading)
            ⟨some 0, some chs.length⟩),
         Event.downloaderAppend manhwaId group_name "translate" (chs.map dlLoading)] ∧
    ∀ mid idx, cacheAfter (run_download_translate manhwaId group_name "translate" chs)
        mid idx "translation_status" = none := by
  refine ⟨fun ch hch => cacheAfter_dtLoop_dl manhwaId "translate" chs hch, ?_, ?_⟩
  · rw [run_download_translate, dtLoop_fst_other manhwaId "translate" (by decide) chs]
  · intro mid idx
    exact cacheAfter_run_dt_tr_none manhwaId group_name "translate" (by decide) chs mid idx

/-- C2 (witness for the amended theorem). -/
theorem claim_C2_amended_witness :
    cacheAfter (run_download_translate "/abc" "g" "translate" [⟨1, none, none⟩])
        "/abc" 1 "translation_status" = none :=
  (claim_C2_amended "/abc" "g" [⟨1, none, none⟩]).2.2 "/abc" 1

/-- C3 (counterexample): the claim says a batch message with an unknown
operation kind is rejected synchronously with no cache mutation, no
broadcast and no enqueue.  At the concrete input (task "bogus") `receive`
dispatches to the download path, which writes the cache, publishes a
broadcast and enqueues the batch. -/
theorem claim_C3_counterexample :
    DownloadTranslateConsumer.receive "/abc" "g" "bogus" [⟨1, none, none⟩] none =
      some [Event.cacheUpdate "/abc" 1 "download_status" "LOADING",
            Event.groupSend "g"
              (GroupMsg.progress [⟨1, some "LOADING", none⟩] ⟨some 0, some 1⟩),
            Event.downloaderAppend "/abc" "g" "bogus" [⟨1, some "LOADING", none⟩]] := by
  decide

/-- C3 (amended): an inbound batch message with an unknown operation kind is
not rejected: every task other than "remove" is dispatched unchecked to
`run_download_translate`, which sets each listed chapter's download_status
to LOADING in the Status Cache, publishes exactly one broadcast and enqueues
exactly one batch (carrying the unknown kind) for asynchronous execution. -/
theorem claim_C3_amended (manhwaId group_name task : String) (chs : List ChapterDict)
    (rc : Option RemoveChoices) (h : task ≠ "remove") :
    DownloadTranslateConsumer.receive manhwaId group_name task chs rc =
      some (run_download_translate manhwaId group_name task chs) ∧
    (run_download_translate manhwaId group_name task chs).countP Event.isGroupSend = 1 ∧
    (run_download_translate manhwaId group_name task chs).countP Event.isEnqueue = 1 ∧
    ∀ ch ∈ chs, cacheAfter (dtLoop manhwaId task chs).2 manhwaId ch.index
        "download_status" = some "LOADING" := by
  refine ⟨?_, countP_send_run_dt _ _ _ _, countP_enq_run_dt _ _ _ _,
    fun ch hch => cacheAfter_dtLoop_dl _ _ _ hch⟩
  unfold DownloadTranslateConsumer.receive
  rw [if_neg h]

/-- C3 (witness for the amended theorem). -/
theorem claim_C3_amended_witness :
    DownloadTranslateConsumer.receive "/abc" "g" "bogus" [⟨1, none, none⟩] none =
      some (run_download_translate "/abc" "g" "bogus" [⟨1, none, none⟩]) :=
  (claim_C3_amended "/abc" "g" "bogus" [⟨1, none, none⟩] none (by decide)).1

/-- C4: a `download_translate` batch with a non-empty chapter list sets both
`download_status` and `translation_status` of every listed chapter to
LOADING in the Status Cache (already in the write phase that precedes the
broadcast) and in the broadcast chapter list, and publishes exactly one
immediate Progress Message, whose counter is `{current: 0, total:
len(chapters)}`. -/
theorem claim_C4 (manhwaId group_name : String) (chs : List ChapterDict)
    (_hne : chs ≠ []) :
    (∀ ch ∈ chs,
        cacheAfter (dtLoop manhwaId "download_translate" chs).2 manhwaId ch.index
            "download_status" = some "LOADING" ∧
        cacheAfter (dtLoop manhwaId "download_translate" chs).2 manhwaId ch.index
            "translation_status" = some "LOADING") ∧
    run_download_translate manhwaId group_name "download_translate" chs =
      (dtLoop manhwaId "download_translate" chs).2 ++
        [Event.groupSend group_name (GroupMsg.progress (chs.map bothLoading)
            ⟨some 0, some chs.length⟩),
         Event.downloaderAppend manhwaId group_name "download_translate"
           (chs.map bothLoading)] ∧
    (run_download_translate manhwaId group_name "download_translate" chs).countP
        Event.isGroupSend = 1 := by
  refine ⟨fun ch hch => ⟨cacheAfter_dtLoop_dl _ _ _ hch, cacheAfter_dtLoop_tr _ _ hch⟩,
    ?_, countP_send_run_dt _ _ _ _⟩
  rw [run_download_translate, dtLoop_fst_dt]

/-- C4 (witness). -/
theorem claim_C4_witness :
    (run_download_translate "/abc" "g" "download_translate"
        [⟨1, none, none⟩, ⟨2, none, none⟩]).countP Event.isGroupSend = 1 :=
  (claim_C4 "/abc" "g" [⟨1, none, none⟩, ⟨2, none, none⟩] (by decide)).2.2

/-- C5: the group key the translation-ready short-circuit publishes to
(derived from the message's `toonkor_id`, here the series id
`"/" ++ route_toonkor_id`) is exactly the group key a
`DownloadTranslateConsumer` serving that series joins on connect — the
short-circuit's single publish goes to that group. -/
theorem claim_C5 (route_toonkor_id : String) (chapter : Nat) (prog : Progress) :
    sendGroups ((QtConsumer.receive ("/" ++ route_toonkor_id) chapter prog true).getD []) =
      [DownloadTranslateConsumer.connect_group route_toonkor_id] := rfl

/-- C6: for a translation-ready control message naming an existing chapter,
the session saves the chapter with translation_status READY (persisted
store), writes READY through to the Status Cache, and publishes exactly one
broadcast for that chapter to the series group — and enqueues nothing for
asynchronous execution. -/
theorem claim_C6 (toonkor_id : String) (chapter : Nat) (prog : Progress) :
    QtConsumer.receive toonkor_id chapter prog true =
      some [Event.chapterSave toonkor_id chapter "READY",
            Event.cacheUpdate toonkor_id chapter "translation_status" "READY",
            Event.groupSend (qt_broadcast_group toonkor_id)
              (GroupMsg.qtTranslated chapter "Translated" prog)] ∧
    cacheAfter ((QtConsumer.receive toonkor_id chapter prog true).getD [])
        toonkor_id chapter "translation_status" = some "READY" ∧
    ((QtConsumer.receive toonkor_id chapter prog true).getD []).countP
        Event.isGroupSend = 1 ∧
    ((QtConsumer.receive toonkor_id chapter prog true).getD []).countP
        Event.isEnqueue = 0 := by
  refine ⟨rfl, ?_, rfl, rfl⟩
  simp [QtConsumer.receive, update_cached_chapter, cacheAfter, headWrite]

/-- C7: a removal request with targets `{downloaded: true, translated:
false}` leaves translation_status untouched everywhere: no
'translation_status' Status Cache entry is ever written by the trace, and
the broadcast chapter list (which only gains `download_status = REMOVING`)
carries every chapter's original translation_status. -/
theorem claim_C7 (manhwaId group_name : String) (chs : List ChapterDict) :
    (∀ mid idx, cacheAfter (run_remove manhwaId group_name chs ⟨true, false⟩)
        mid idx "translation_status" = none) ∧
    run_remove manhwaId group_name chs ⟨true, false⟩ =
      (rmLoop manhwaId ⟨true, false⟩ chs).2 ++
        [Event.groupSend group_name (GroupMsg.progress (chs.map dlRemoving)
            ⟨none, none⟩),
         Event.cleanerAppend manhwaId group_name (chs.map dlRemoving) ⟨true, false⟩] ∧
    (rmLoop manhwaId ⟨true, false⟩ chs).1.map ChapterDict.translation_status =
      chs.map ChapterDict.translation_status := by
  refine ⟨fun mid idx => cacheAfter_run_remove_tr_none _ _ _ _ _ _, ?_, ?_⟩
  · rw [run_remove, rmLoop_fst_downloaded_only]
  · rw [rmLoop_fst_downloaded_only, List.map_map]
    rfl

/-- C8: every removal request publishes exactly one immediate Progress
Message; each publish in the trace goes to the series group and carries the
empty progress object (no current/total fields). -/
theorem claim_C8 (manhwaId group_name : String) (chs : List ChapterDict)
    (rc : RemoveChoices) :
    (run_remove manhwaId group_name chs rc).countP Event.isGroupSend = 1 ∧
    ∀ g m, Event.groupSend g m ∈ run_remove manhwaId group_name chs rc →
      g = group_name ∧ GroupMsg.progressOf m = ⟨none, none⟩ := by
  refine ⟨countP_send_run_remove _ _ _ _, ?_⟩
  intro g m hm
  rw [run_remove] at hm
  rcases List.mem_append.1 hm with h1 | h1
  · obtain ⟨ch2, _, g2, hg, _⟩ := rmLoop_shape manhwaId rc chs _ h1
    cases hg
  · rcases List.mem_cons.1 h1 with h2 | h2
    · injection h2 with hg hm2
      subst hg
      subst hm2
      exact ⟨rfl, rfl⟩
    rcases List.mem_cons.1 h2 with h3 | h3
    · cases h3
    · cases h3

/-- C9: in both `run_download_translate` and `run_remove`, the trace is
exactly a prefix consisting only of Status Cache writes, then the one
immediate broadcast, then the enqueue onto the asynchronous executor queue
(downloader resp. cleaner) — so every cache write precedes the broadcast and
the broadcast precedes the enqueue. -/
theorem claim_C9 (manhwaId group_name task : String) (chs : List ChapterDict)
    (rc : RemoveChoices) :
    (∃ pre msg batch,
       run_download_translate manhwaId group_name task chs =
         pre ++ [Event.groupSend group_name msg,
                 Event.downloaderAppend manhwaId group_name task batch] ∧
       ∀ e ∈ pre, e.isCacheUpdate = true) ∧
    (∃ pre msg batch,
       run_remove manhwaId group_name chs rc =
         pre ++ [Event.groupSend group_name msg,
                 Event.cleanerAppend manhwaId group_name batch rc] ∧
       ∀ e ∈ pre, e.isCacheUpdate = true) :=
  ⟨⟨_, _, _, rfl, dtLoop_snd_cacheUpdate _ _ _⟩,
   ⟨_, _, _, rfl, rmLoop_snd_cacheUpdate _ _ _⟩⟩

/-- C8 (witness). -/
theorem claim_C8_witness :
    (run_remove "/abc" "g" [⟨3, none, none⟩] ⟨true, false⟩).countP Event.isGroupSend = 1 :=
  (claim_C8 "/abc" "g" [⟨3, none, none⟩] ⟨true, false⟩).1

/-- C9 (witness). -/
theorem claim_C9_witness :
    ∃ pre msg batch,
      run_remove "/abc" "g" [⟨1, none, none⟩] ⟨true, true⟩ =
        pre ++ [Event.groupSend "g" msg,
                Event.cleanerAppend "/abc" "g" batch ⟨true, true⟩] ∧
      ∀ e ∈ pre, e.isCacheUpdate = true :=
  (claim_C9 "/abc" "g" "download" [⟨1, none, none⟩] ⟨true, true⟩).2

/-! ### file_handler facts -/

theorem sanitizeFrom_length (copyOk : String → String → Bool) (ps : List String) :
    ∀ j, (sanitizeFrom copyOk j ps).length = ps.length := by
  induction ps with
  | nil => intro j; rfl
  | cons p rest ih =>
    intro j
    simp [sanitizeFrom, ih]

theorem sanitizeOne_ascii (copyOk : String → String → Bool) (j : Nat) {p : String}
    (h : pyIsAscii p = true) : sanitizeOne copyOk j p = p := by
  rw [sanitizeOne, if_pos h]

theorem sanitizeFrom_get_ascii (copyOk : String → String → Bool) :
    ∀ (ps : List String) (j i : Nat) (p : String), ps.get? i = some p →
      pyIsAscii p = true → (sanitizeFrom copyOk j ps).get? i = some p := by
  intro ps
  induction ps with
  | nil => intro j i p h _; simp at h
  | cons q rest ih =>
    intro j i p h ha
    cases i with
    | zero =>
      rw [List.get?_cons_zero] at h
      cases h
      rw [sanitizeFrom, List.get?_cons_zero, sanitizeOne_ascii copyOk j ha]
    | succ n =>
      rw [List.get?_cons_succ] at h
      rw [sanitizeFrom, List.get?_cons_succ]
      exact ih (j + 1) n p h ha

theorem prepare_files_isSome (copyOk : String → String → Bool)
    (extract : String → List String) :
    ∀ fps, (prepare_files copyOk extract fps).isSome = true := by
  intro fps
  induction fps with
  | nil => rfl
  | cons path rest ih =>
    rw [prepare_files]
    by_cases h : endsWithAny (pyLower path) archiveExts = true
    · rw [if_pos h]
      cases hp : prepare_files copyOk extract rest with
      | none => rw [hp] at ih; cases ih
      | some r => rfl
    · rw [if_neg h]
      cases hg : (sanitize_and_copy_files copyOk [path]).get? 0 with
      | none =>
        have hlen : (sanitize_and_copy_files copyOk [path]).length = 1 :=
          sanitizeFrom_length copyOk [path] 0
        rw [List.get?_eq_none, hlen] at hg
        exact absurd hg (by decide)
      | some p2 =>
        cases hp : prepare_files copyOk extract rest with
        | none => rw [hp] at ih; cases ih
        | some r => rfl

/-- C10: `sanitize_and_copy_files` returns a list of exactly the input's
length, with every fully-ASCII path unchanged at its position; consequently
the subscript `sanitize_and_copy_files([path])[0]` taken by `prepare_files`
on the non-archive branch never fails, and `prepare_files` always returns a
result. -/
theorem claim_C10 (copyOk : String → String → Bool)
    (extract : String → List String) (file_paths : List String) :
    (sanitize_and_copy_files copyOk file_paths).length = file_paths.length ∧
    (∀ i p, file_paths.get? i = some p → pyIsAscii p = true →
      (sanitize_and_copy_files copyOk file_paths).get? i = some p) ∧
    (prepare_files copyOk extract file_paths).isSome = true :=
  ⟨sanitizeFrom_length copyOk file_paths 0,
   fun i p h ha => sanitizeFrom_get_ascii copyOk file_paths 0 i p h ha,
   prepare_files_isSome copyOk extract file_paths⟩

/-- C10 (witness). -/
theorem claim_C10_witness :
    (sanitize_and_copy_files (fun _ _ => true) ["a.png"]).get? 0 = some "a.png" :=
  (claim_C10 (fun _ _ => true) (fun _ => []) ["a.png"]).2.1 0 "a.png" rfl (by decide)
